import Mathlib

/-!
Verification of the LS-8 emulator (`cpu_sprint.py`, `ls8_sprint.py`).

The machine state is embedded as a record of Python values: registers and
RAM are lists of unbounded integers (Python `int`), the program counter,
instruction register and flag register are integers, and `halted` is a
boolean.  List indexing follows Python semantics: a negative index within
`-len .. -1` wraps from the end, anything else out of range raises
`IndexError`.  Fallible operations return `Except Stop CPU`, where `Stop`
records the Python exception (or `sys.exit`) that ended execution, together
with the state at that moment.
-/

namespace LS8

/-- Opcode constants, from the top of `cpu_sprint.py`. -/
def ADD : Int := 0b10100000

def AND : Int := 0b10101000

def CALL : Int := 0b01010000

def CMP : Int := 0b10100111

def HLT : Int := 0b00000001

def JEQ : Int := 0b01010101

def JMP : Int := 0b01010100

def JNE : Int := 0b01010110

def LDI : Int := 0b10000010

def MOD : Int := 0b10100100

def MUL : Int := 0b10100010

def NOT : Int := 0b01101001

def OR : Int := 0b10101010

def POP : Int := 0b01000110

def PRN : Int := 0b01000111

def PUSH : Int := 0b01000101

def RET : Int := 0b00010001

def SHL : Int := 0b10101100

def SHR : Int := 0b10101101

def XOR : Int := 0b10101011

/-- `SP = 7`: the index of the register used as stack pointer. -/
def SP : Int := 7

/-- Python list indexing: wrap a negative index from the end, anything out of
`-len .. len-1` is an `IndexError` (`none`). -/
def pyIdx (n : Nat) (i : Int) : Option Nat :=
  if 0 ≤ i ∧ i < (n : Int) then some i.toNat
  else if -(n : Int) ≤ i ∧ i < 0 then some (i + (n : Int)).toNat
  else none

/-- Python `l[i]` (read). -/
def pyGet (l : List Int) (i : Int) : Option Int :=
  (pyIdx l.length i).bind fun j => l[j]?

/-- Python `l[i] = v` (write). -/
def pySet (l : List Int) (i : Int) (v : Int) : Option (List Int) :=
  (pyIdx l.length i).map fun j => l.set j v

/-- The machine state of `class CPU`.  `output` collects the values printed
by the `prn` handler. -/
structure CPU where
  reg : List Int
  pc : Int
  ir : Int
  fl : Int
  ram : List Int
  halted : Bool
  output : List Int
deriving DecidableEq

/-- `CPU.__init__`: eight zero registers with `reg[7] = 0xF4`, `pc = ir = fl = 0`,
256 zero RAM cells, not halted. -/
def CPU.init : CPU :=
  { reg := [0, 0, 0, 0, 0, 0, 0, 0xF4]
    pc := 0
    ir := 0
    fl := 0
    ram := List.replicate 256 0
    halted := false
    output := [] }

/-- How a run ends abnormally: `sys.exit` (from `hlt`), a `KeyError` from the
branchtable dict, an `IndexError` from list indexing, the
`Exception("Unsupported ALU operation")`, or a `ValueError` (negative shift
count).  Each carries the state at the moment the exception was raised. -/
inductive Stop where
  | sysExit (code : Int) (s : CPU)
  | keyError (key : Int) (s : CPU)
  | indexError (s : CPU)
  | unsupportedALU (s : CPU)
  | valueError (s : CPU)
deriving DecidableEq

instance : DecidableEq (Except Stop CPU) := fun a b =>
  match a, b with
  | .ok x, .ok y =>
    if h : x = y then isTrue (by rw [h]) else isFalse (fun hh => h (by cases hh; rfl))
  | .error x, .error y =>
    if h : x = y then isTrue (by rw [h]) else isFalse (fun hh => h (by cases hh; rfl))
  | .ok _, .error _ => isFalse (fun hh => by cases hh)
  | .error _, .ok _ => isFalse (fun hh => by cases hh)

/-- Read register `i` (`self.reg[i]`), raising `IndexError` when out of range. -/
def readReg (s : CPU) (i : Int) : Except Stop Int :=
  match pyGet s.reg i with
  | some v => .ok v
  | none => .error (.indexError s)

/-- Write register `i` (`self.reg[i] = v`). -/
def writeReg (s : CPU) (i v : Int) : Except Stop CPU :=
  match pySet s.reg i v with
  | some r => .ok { s with reg := r }
  | none => .error (.indexError s)

/-- `CPU.ram_read`: return the RAM value at the given address. -/
def ram_read (s : CPU) (address : Int) : Except Stop Int :=
  match pyGet s.ram address with
  | some v => .ok v
  | none => .error (.indexError s)

/-- `CPU.ram_write`: write the value at the given RAM address. -/
def ram_write (s : CPU) (address value : Int) : Except Stop CPU :=
  match pySet s.ram address value with
  | some r => .ok { s with ram := r }
  | none => .error (.indexError s)

/-- `CPU.hlt`: set `halted = True`, then `sys.exit(-1)` (raises `SystemExit`,
so the caller never resumes). -/
def hlt (s : CPU) (operand_a operand_b : Int) : Except Stop CPU :=
  .error (.sysExit (-1) { s with halted := true })

/-- `CPU.alu`: the if/elif chain on the instruction byte.  Arithmetic is on
unbounded Python integers (no 8-bit masking appears in the source).  `~x` is
`-(x+1)`, `x << n` is `x * 2^n`, `x >> n` is an arithmetic shift, `%` follows
the sign of the divisor (`Int.fmod`); a negative shift count raises
`ValueError`. -/
def alu (s : CPU) (instruction reg_a reg_b : Int) : Except Stop CPU :=
  if instruction = ADD then do
    let va ← readReg s reg_a
    let vb ← readReg s reg_b
    writeReg s reg_a (va + vb)
  else if instruction = AND then do
    let va ← readReg s reg_a
    let vb ← readReg s reg_b
    writeReg s reg_a (Int.land va vb)
  else if instruction = CMP then do
    let va ← readReg s reg_a
    let vb ← readReg s reg_b
    if va < vb then .ok { s with fl := 0b00000100 }
    else if va > vb then .ok { s with fl := 0b00000010 }
    else .ok { s with fl := 0b00000001 }
  else if instruction = MOD then do
    let vb ← readReg s reg_b
    if vb = 0 then hlt s reg_a reg_b
    else do
      let va ← readReg s reg_a
      writeReg s reg_a (Int.fmod va vb)
  else if instruction = MUL then do
    let va ← readReg s reg_a
    let vb ← readReg s reg_b
    writeReg s reg_a (va * vb)
  else if instruction = NOT then do
    let va ← readReg s reg_a
    writeReg s reg_a (Int.not va)
  else if instruction = OR then do
    let va ← readReg s reg_a
    let vb ← readReg s reg_b
    writeReg s reg_a (Int.lor va vb)
  else if instruction = SHL then do
    let va ← readReg s reg_a
    let vb ← readReg s reg_b
    if vb < 0 then .error (.valueError s)
    else writeReg s reg_a (va * 2 ^ vb.toNat)
  else if instruction = SHR then do
    let va ← readReg s reg_a
    let vb ← readReg s reg_b
    if vb < 0 then .error (.valueError s)
    else writeReg s reg_a (Int.shiftRight va vb.toNat)
  else if instruction = XOR then do
    let va ← readReg s reg_a
    let vb ← readReg s reg_b
    writeReg s reg_a (Int.xor va vb)
  else
    .error (.unsupportedALU s)

/-- `CPU.call`: `reg[SP] -= 1; ram[reg[SP]] = pc + 2; pc = reg[operand_a]`. -/
def call (s : CPU) (operand_a operand_b : Int) : Except Stop CPU := do
  let sp ← readReg s SP
  let s ← writeReg s SP (sp - 1)
  let sp2 ← readReg s SP
  let s ← ram_write s sp2 (s.pc + 2)
  let v ← readReg s operand_a
  .ok { s with pc := v }

/-- `CPU.jeq`: if the flag register equals `0b00000001`, jump to `reg[operand_a]`,
else `pc += 2`. -/
def jeq (s : CPU) (operand_a operand_b : Int) : Except Stop CPU :=
  if s.fl = 0b00000001 then do
    let v ← readReg s operand_a
    .ok { s with pc := v }
  else .ok { s with pc := s.pc + 2 }

/-- `CPU.jmp`: `pc = reg[operand_a]`. -/
def jmp (s : CPU) (operand_a operand_b : Int) : Except Stop CPU := do
  let v ← readReg s operand_a
  .ok { s with pc := v }

/-- `CPU.jne`: if the flag register is not `0b00000001`, jump to `reg[operand_a]`,
else `pc += 2`. -/
def jne (s : CPU) (operand_a operand_b : Int) : Except Stop CPU :=
  if s.fl ≠ 0b00000001 then do
    let v ← readReg s operand_a
    .ok { s with pc := v }
  else .ok { s with pc := s.pc + 2 }

/-- `CPU.ldi`: `reg[operand_a] = operand_b`. -/
def ldi (s : CPU) (operand_a operand_b : Int) : Except Stop CPU :=
  writeReg s operand_a operand_b

/-- `CPU.pop`: `reg[operand_a] = ram[reg[SP]]; reg[SP] += 1`. -/
def pop (s : CPU) (operand_a operand_b : Int) : Except Stop CPU := do
  let sp ← readReg s SP
  let v ← ram_read s sp
  let s ← writeReg s operand_a v
  let sp2 ← readReg s SP
  writeReg s SP (sp2 + 1)

/-- `CPU.prn`: print `reg[operand_a]` (recorded in `output`). -/
def prn (s : CPU) (operand_a operand_b : Int) : Except Stop CPU := do
  let v ← readReg s operand_a
  .ok { s with output := s.output ++ [v] }

/-- `CPU.push`: `reg[SP] -= 1; ram[reg[SP]] = reg[operand_a]`. -/
def push (s : CPU) (operand_a operand_b : Int) : Except Stop CPU := do
  let sp ← readReg s SP
  let s ← writeReg s SP (sp - 1)
  let sp2 ← readReg s SP
  let v ← readReg s operand_a
  ram_write s sp2 v

/-- `CPU.ret`: `pc = ram[reg[SP]]` (SP is not adjusted). -/
def ret (s : CPU) (operand_a operand_b : Int) : Except Stop CPU := do
  let sp ← readReg s SP
  let v ← ram_read s sp
  .ok { s with pc := v }

/-- The `branchtable` dict of `CPU.__init__`: opcode byte to handler;
`none` models a `KeyError` on lookup. -/
def branchtableLookup (ir : Int) : Option (CPU → Int → Int → Except Stop CPU) :=
  if ir = CALL then some call
  else if ir = HLT then some hlt
  else if ir = JEQ then some jeq
  else if ir = JMP then some jmp
  else if ir = JNE then some jne
  else if ir = LDI then some ldi
  else if ir = POP then some pop
  else if ir = PRN then some prn
  else if ir = PUSH then some push
  else if ir = RET then some ret
  else none

/-- The dispatch of `CPU.run`: ALU-classed bytes go to `alu`, the rest
through the branchtable (a missing key raises `KeyError`). -/
def dispatch (s : CPU) (ir operand_a operand_b : Int) : Except Stop CPU :=
  if Int.land (ir >>> (5 : Nat)) 0b001 = 1 then alu s ir operand_a operand_b
  else
    match branchtableLookup ir with
    | some h => h s operand_a operand_b
    | none => .error (.keyError ir s)

/-- One iteration of the `while not self.halted` body of `CPU.run`: fetch the
byte at `pc` into `ir`, decode `num_args` / `is_alu_op` / `pc_setter` by bit
position, unconditionally read the two operand bytes at `pc+1` and `pc+2`,
dispatch, then advance `pc` by `num_args + 1` unless `pc_setter` is set. -/
def step (s : CPU) : Except Stop CPU := do
  let ir ← ram_read s s.pc
  let s := { s with ir := ir }
  let num_args := ir >>> (6 : Nat)
  let pc_setter := Int.land (ir >>> (4 : Nat)) 0b0001
  let operand_a ← ram_read s (s.pc + 1)
  let operand_b ← ram_read s (s.pc + 2)
  let t ← dispatch s ir operand_a operand_b
  if pc_setter ≠ 1 then .ok { t with pc := t.pc + num_args + 1 }
  else .ok t

/-- `CPU.run` with explicit fuel: repeat `step` while not halted. -/
def runFuel : Nat → CPU → Except Stop CPU
  | 0, s => .ok s
  | n + 1, s =>
    if s.halted then .ok s
    else do
      let s' ← step s
      runFuel n s'

/-- Accumulate the binary digits of a run of `'0'`/`'1'` characters; any other
character makes the whole literal invalid. -/
def binNatAux : List Char → Nat → Option Nat
  | [], acc => some acc
  | c :: cs, acc =>
    if c = '0' then binNatAux cs (2 * acc)
    else if c = '1' then binNatAux cs (2 * acc + 1)
    else none

/-- Drop an optional `0b` / `0B` prefix of a binary literal. -/
def dropBinMark : List Char → List Char
  | '0' :: 'b' :: rest => rest
  | '0' :: 'B' :: rest => rest
  | cs => cs

/-- The digits of a binary literal after the optional base mark; empty is
invalid. -/
def binCore (cs : List Char) : Option Nat :=
  match dropBinMark cs with
  | [] => none
  | d :: ds => binNatAux (d :: ds) 0

/-- Python `int(t, 2)` on a stripped string: optional sign, optional `0b`
mark, then a nonempty run of binary digits (digit-group underscores of
Python's literal syntax are not modelled; no claim depends on them). -/
def pyIntBase2 (t : String) : Option Int :=
  match t.toList with
  | '+' :: rest => (binCore rest).map fun n => (n : Int)
  | '-' :: rest => (binCore rest).map fun n => -(n : Int)
  | cs => (binCore cs).map fun n => (n : Int)

/-- One line of `CPU.load`: split at `#`, keep the part before it, strip it,
parse it in base 2; a parse failure means the line is skipped. -/
def parseBinLine (line : String) : Option Int :=
  pyIntBase2 (line.takeWhile (fun c => c ≠ '#')).trim

/-- The loop of `CPU.load` over the lines of an open file.  The bare
`except: continue` also swallows an `IndexError` from `ram_write`, so lines
beyond address 255 are skipped without advancing the address. -/
def loadLines : CPU → Nat → List String → CPU
  | s, _, [] => s
  | s, address, line :: rest =>
    match parseBinLine line with
    | none => loadLines s address rest
    | some x =>
      match pySet s.ram (address : Int) x with
      | none => loadLines s address rest
      | some r => loadLines { s with ram := r } (address + 1) rest

/-- `CPU.load`: a present file (`some` of its lines) is parsed into RAM from
address 0; a missing file (`none`) raises `FileNotFoundError`, which the
handler turns into the message `File not found.` — and nothing else, the
method then returns normally. -/
def load (s : CPU) (file : Option (List String)) : CPU × List String :=
  match file with
  | some lines => (loadLines s 0 lines, [])
  | none => (s, ["File not found."])

/-- `ls8_sprint.py`: with other than two argv entries print a usage message
(and argv itself, modelled as the joined list); otherwise construct a CPU,
`load` the named file and then — unconditionally, whatever `load` did —
`run` it.  The result pairs everything printed before `run` with the run's
outcome (`none` when the usage branch was taken and no machine was built). -/
def mainModel (fuel : Nat) (argv : List String) (file : Option (List String)) :
    List String × Option (Except Stop CPU) :=
  if argv.length ≠ 2 then
    (["Wrong number of arguments passed in.", String.intercalate " " argv], none)
  else
    let c := CPU.init
    let p := load c file
    (p.2, some (runFuel fuel p.1))

/-! ### Helper lemmas about Python indexing and `Except` plumbing -/

lemma pyIdx_nonneg (n : Nat) (i : Int) (h0 : 0 ≤ i) (h1 : i < (n : Int)) :
    pyIdx n i = some i.toNat := by
  unfold pyIdx
  rw [if_pos ⟨h0, h1⟩]

lemma pyIdx_ge (n : Nat) (i : Int) (h : (n : Int) ≤ i) : pyIdx n i = none := by
  unfold pyIdx
  rw [if_neg (by omega), if_neg (by omega)]

lemma pyGet_nonneg (l : List Int) (i : Int) (h0 : 0 ≤ i) (h1 : i < (l.length : Int)) :
    pyGet l i = l[i.toNat]? := by
  unfold pyGet
  rw [pyIdx_nonneg _ _ h0 h1]
  rfl

lemma pyGet_natCast (l : List Int) (a : Nat) (h : a < l.length) :
    pyGet l (a : Int) = l[a]? := by
  rw [pyGet_nonneg l _ (by omega) (by omega)]
  simp

lemma pyGet_ge (l : List Int) (i : Int) (h : (l.length : Int) ≤ i) : pyGet l i = none := by
  unfold pyGet
  rw [pyIdx_ge _ _ h]
  rfl

lemma pySet_nonneg (l : List Int) (i v : Int) (h0 : 0 ≤ i) (h1 : i < (l.length : Int)) :
    pySet l i v = some (l.set i.toNat v) := by
  unfold pySet
  rw [pyIdx_nonneg _ _ h0 h1]
  rfl

lemma pySet_natCast (l : List Int) (a : Nat) (v : Int) (h : a < l.length) :
    pySet l (a : Int) v = some (l.set a v) := by
  rw [pySet_nonneg l _ v (by omega) (by omega)]
  simp

lemma readReg_ok (s : CPU) (i v : Int) (h0 : 0 ≤ i) (h1 : i < (s.reg.length : Int))
    (hv : s.reg[i.toNat]? = some v) : readReg s i = .ok v := by
  unfold readReg
  rw [pyGet_nonneg _ _ h0 h1, hv]

lemma writeReg_ok (s : CPU) (i v : Int) (h0 : 0 ≤ i) (h1 : i < (s.reg.length : Int)) :
    writeReg s i v = .ok { s with reg := s.reg.set i.toNat v } := by
  unfold writeReg
  rw [pySet_nonneg _ _ _ h0 h1]

lemma ram_read_ok (s : CPU) (i v : Int) (h0 : 0 ≤ i) (h1 : i < (s.ram.length : Int))
    (hv : s.ram[i.toNat]? = some v) : ram_read s i = .ok v := by
  unfold ram_read
  rw [pyGet_nonneg _ _ h0 h1, hv]

lemma ram_write_ok (s : CPU) (i v : Int) (h0 : 0 ≤ i) (h1 : i < (s.ram.length : Int)) :
    ram_write s i v = .ok { s with ram := s.ram.set i.toNat v } := by
  unfold ram_write
  rw [pySet_nonneg _ _ _ h0 h1]

lemma okBind {α β : Type} (a : α) (f : α → Except Stop β) :
    (Except.ok a : Except Stop α) >>= f = f a := rfl

lemma errBind {α β : Type} (e : Stop) (f : α → Except Stop β) :
    (Except.error e : Except Stop α) >>= f = Except.error e := rfl

lemma bindOkInv {α β : Type} {x : Except Stop α} {f : α → Except Stop β} {b : β}
    (h : x >>= f = .ok b) : ∃ a, x = .ok a ∧ f a = .ok b := by
  cases x with
  | ok a => exact ⟨a, rfl, h⟩
  | error e => exact Except.noConfusion h

lemma writeReg_ok_inv {s : CPU} {i v : Int} {t : CPU} (h : writeReg s i v = .ok t) :
    ∃ r, t = { s with reg := r } := by
  unfold writeReg at h
  cases hp : pySet s.reg i v with
  | none => rw [hp] at h; exact Except.noConfusion h
  | some r => rw [hp] at h; exact ⟨r, (Except.ok.inj h).symm⟩

lemma ram_write_ok_inv {s : CPU} {i v : Int} {t : CPU} (h : ram_write s i v = .ok t) :
    ∃ r, t = { s with ram := r } := by
  unfold ram_write at h
  cases hp : pySet s.ram i v with
  | none => rw [hp] at h; exact Except.noConfusion h
  | some r => rw [hp] at h; exact ⟨r, (Except.ok.inj h).symm⟩

/-! ### The handlers that return normally never touch the program counter -/

lemma alu_ok_pc {s : CPU} {ins ra rb : Int} {t : CPU} (h : alu s ins ra rb = .ok t) :
    t.pc = s.pc := by
  unfold alu at h
  by_cases c1 : ins = ADD
  · rw [if_pos c1] at h
    obtain ⟨va, _, h⟩ := bindOkInv h
    obtain ⟨vb, _, h⟩ := bindOkInv h
    obtain ⟨r, rfl⟩ := writeReg_ok_inv h
    rfl
  rw [if_neg c1] at h
  by_cases c2 : ins = AND
  · rw [if_pos c2] at h
    obtain ⟨va, _, h⟩ := bindOkInv h
    obtain ⟨vb, _, h⟩ := bindOkInv h
    obtain ⟨r, rfl⟩ := writeReg_ok_inv h
    rfl
  rw [if_neg c2] at h
  by_cases c3 : ins = CMP
  · rw [if_pos c3] at h
    obtain ⟨va, _, h⟩ := bindOkInv h
    obtain ⟨vb, _, h⟩ := bindOkInv h
    split at h
    · cases Except.ok.inj h; rfl
    split at h
    · cases Except.ok.inj h; rfl
    · cases Except.ok.inj h; rfl
  rw [if_neg c3] at h
  by_cases c4 : ins = MOD
  · rw [if_pos c4] at h
    obtain ⟨vb, _, h⟩ := bindOkInv h
    split at h
    · exact Except.noConfusion h
    · obtain ⟨va, _, h⟩ := bindOkInv h
      obtain ⟨r, rfl⟩ := writeReg_ok_inv h
      rfl
  rw [if_neg c4] at h
  by_cases c5 : ins = MUL
  · rw [if_pos c5] at h
    obtain ⟨va, _, h⟩ := bindOkInv h
    obtain ⟨vb, _, h⟩ := bindOkInv h
    obtain ⟨r, rfl⟩ := writeReg_ok_inv h
    rfl
  rw [if_neg c5] at h
  by_cases c6 : ins = NOT
  · rw [if_pos c6] at h
    obtain ⟨va, _, h⟩ := bindOkInv h
    obtain ⟨r, rfl⟩ := writeReg_ok_inv h
    rfl
  rw [if_neg c6] at h
  by_cases c7 : ins = OR
  · rw [if_pos c7] at h
    obtain ⟨va, _, h⟩ := bindOkInv h
    obtain ⟨vb, _, h⟩ := bindOkInv h
    obtain ⟨r, rfl⟩ := writeReg_ok_inv h
    rfl
  rw [if_neg c7] at h
  by_cases c8 : ins = SHL
  · rw [if_pos c8] at h
    obtain ⟨va, _, h⟩ := bindOkInv h
    obtain ⟨vb, _, h⟩ := bindOkInv h
    split at h
    · exact Except.noConfusion h
    · obtain ⟨r, rfl⟩ := writeReg_ok_inv h
      rfl
  rw [if_neg c8] at h
  by_cases c9 : ins = SHR
  · rw [if_pos c9] at h
    obtain ⟨va, _, h⟩ := bindOkInv h
    obtain ⟨vb, _, h⟩ := bindOkInv h
    split at h
    · exact Except.noConfusion h
    · obtain ⟨r, rfl⟩ := writeReg_ok_inv h
      rfl
  rw [if_neg c9] at h
  by_cases c10 : ins = XOR
  · rw [if_pos c10] at h
    obtain ⟨va, _, h⟩ := bindOkInv h
    obtain ⟨vb, _, h⟩ := bindOkInv h
    obtain ⟨r, rfl⟩ := writeReg_ok_inv h
    rfl
  rw [if_neg c10] at h
  exact Except.noConfusion h

lemma ldi_ok_pc {s : CPU} {oa ob : Int} {t : CPU} (h : ldi s oa ob = .ok t) :
    t.pc = s.pc := by
  obtain ⟨r, rfl⟩ := writeReg_ok_inv h
  rfl

lemma pop_ok_pc {s : CPU} {oa ob : Int} {t : CPU} (h : pop s oa ob = .ok t) :
    t.pc = s.pc := by
  unfold pop at h
  obtain ⟨sp, _, h⟩ := bindOkInv h
  obtain ⟨v, _, h⟩ := bindOkInv h
  obtain ⟨s₁, hw, h⟩ := bindOkInv h
  obtain ⟨r, rfl⟩ := writeReg_ok_inv hw
  obtain ⟨sp2, _, h⟩ := bindOkInv h
  obtain ⟨r2, rfl⟩ := writeReg_ok_inv h
  rfl

lemma prn_ok_pc {s : CPU} {oa ob : Int} {t : CPU} (h : prn s oa ob = .ok t) :
    t.pc = s.pc := by
  unfold prn at h
  obtain ⟨v, _, h⟩ := bindOkInv h
  cases Except.ok.inj h; rfl

lemma push_ok_pc {s : CPU} {oa ob : Int} {t : CPU} (h : push s oa ob = .ok t) :
    t.pc = s.pc := by
  unfold push at h
  obtain ⟨sp, _, h⟩ := bindOkInv h
  obtain ⟨s₁, hw, h⟩ := bindOkInv h
  obtain ⟨r, rfl⟩ := writeReg_ok_inv hw
  obtain ⟨sp2, _, h⟩ := bindOkInv h
  obtain ⟨v, _, h⟩ := bindOkInv h
  obtain ⟨m, rfl⟩ := ram_write_ok_inv h
  rfl

/-- A dispatch that returns normally from an instruction byte without the
PC-setter bit leaves the program counter alone: the PC-setting handlers
(call, jmp, jeq, jne, ret) all carry bit 4, `hlt` never returns, and the
remaining handlers and the whole ALU never assign `pc`. -/
lemma dispatch_ok_pc (s : CPU) (ir oa ob : Int) (t : CPU)
    (hset : Int.land (ir >>> (4 : Nat)) 0b0001 ≠ 1)
    (h : dispatch s ir oa ob = .ok t) : t.pc = s.pc := by
  unfold dispatch at h
  split at h
  · exact alu_ok_pc h
  · unfold branchtableLookup at h
    by_cases h1 : ir = CALL
    · exact absurd (by rw [h1]; decide) hset
    rw [if_neg h1] at h
    by_cases h2 : ir = HLT
    · rw [if_pos h2] at h
      exact Except.noConfusion h
    rw [if_neg h2] at h
    by_cases h3 : ir = JEQ
    · exact absurd (by rw [h3]; decide) hset
    rw [if_neg h3] at h
    by_cases h4 : ir = JMP
    · exact absurd (by rw [h4]; decide) hset
    rw [if_neg h4] at h
    by_cases h5 : ir = JNE
    · exact absurd (by rw [h5]; decide) hset
    rw [if_neg h5] at h
    by_cases h6 : ir = LDI
    · rw [if_pos h6] at h
      exact ldi_ok_pc h
    rw [if_neg h6] at h
    by_cases h7 : ir = POP
    · rw [if_pos h7] at h
      exact pop_ok_pc h
    rw [if_neg h7] at h
    by_cases h8 : ir = PRN
    · rw [if_pos h8] at h
      exact prn_ok_pc h
    rw [if_neg h8] at h
    by_cases h9 : ir = PUSH
    · rw [if_pos h9] at h
      exact push_ok_pc h
    rw [if_neg h9] at h
    by_cases h10 : ir = RET
    · exact absurd (by rw [h10]; decide) hset
    rw [if_neg h10] at h
    exact Except.noConfusion h

lemma readReg_nat (s : CPU) (a : Nat) (v : Int) (h : a < s.reg.length)
    (hv : s.reg[a]? = some v) : readReg s (a : Int) = .ok v := by
  unfold readReg
  rw [pyGet_natCast _ _ h, hv]

lemma writeReg_nat (s : CPU) (a : Nat) (v : Int) (h : a < s.reg.length) :
    writeReg s (a : Int) v = .ok { s with reg := s.reg.set a v } := by
  unfold writeReg
  rw [pySet_natCast _ _ _ h]

lemma alu_ADD (s : CPU) (ra rb : Int) :
    alu s ADD ra rb = (do
      let va ← readReg s ra
      let vb ← readReg s rb
      writeReg s ra (va + vb)) := rfl

lemma alu_CMP (s : CPU) (ra rb : Int) :
    alu s CMP ra rb = (do
      let va ← readReg s ra
      let vb ← readReg s rb
      if va < vb then .ok { s with fl := 0b00000100 }
      else if va > vb then .ok { s with fl := 0b00000010 }
      else .ok { s with fl := 0b00000001 }) := rfl

lemma alu_MOD (s : CPU) (ra rb : Int) :
    alu s MOD ra rb = (do
      let vb ← readReg s rb
      if vb = 0 then hlt s ra rb
      else do
        let va ← readReg s ra
        writeReg s ra (Int.fmod va vb)) := rfl

lemma alu_MUL (s : CPU) (ra rb : Int) :
    alu s MUL ra rb = (do
      let va ← readReg s ra
      let vb ← readReg s rb
      writeReg s ra (va * vb)) := rfl

/-- `step` written out, given the three fetches at `pc`, `pc+1`, `pc+2`. -/
lemma step_eq (s : CPU) (ir oa ob : Int)
    (hir : pyGet s.ram s.pc = some ir)
    (hoa : pyGet s.ram (s.pc + 1) = some oa)
    (hob : pyGet s.ram (s.pc + 2) = some ob) :
    step s = dispatch { s with ir := ir } ir oa ob >>= fun t =>
      if Int.land (ir >>> (4 : Nat)) 0b0001 ≠ 1 then
        .ok { t with pc := t.pc + ir >>> (6 : Nat) + 1 }
      else .ok t := by
  simp only [step, ram_read, hir, hoa, hob, okBind]


/-! ### Claim theorems -/

/-- A register file for the C1 counterexample: `reg[0] = 200`, `reg[1] = 100`. -/
def c1state : CPU := { CPU.init with reg := [200, 100, 0, 0, 0, 0, 0, 0xF4] }

/-- C1 (counterexample): with `reg[0] = 200` and `reg[1] = 100` — both valid
8-bit values — the ALU add opcode leaves `reg[0] = 300`, not the 8-bit
wrapped sum `(200 + 100) % 256 = 44`, and multiply leaves `reg[0] = 20000`,
not `20000 % 256 = 32`: the source applies no 8-bit reduction. -/
theorem C1_counterexample :
    (alu c1state ADD 0 1).toOption.map (fun s => s.reg[0]?) = some (some 300) ∧
    ((200 + 100 : Int) % 256 = 44 ∧ ¬ (300 : Int) = 44) ∧
    (alu c1state MUL 0 1).toOption.map (fun s => s.reg[0]?) = some (some 20000) ∧
    ((200 * 100 : Int) % 256 = 32 ∧ ¬ (20000 : Int) = 32) := by decide

/-- C1 (amended): for every pair of register indices `a, b` in `0..7` and
every register-file state, the ALU add opcode leaves `reg[a]` equal to the
exact (unbounded) sum of the old `reg[a]` and `reg[b]`, and multiply the
exact product — with no reduction modulo 256 — and modifies no other
register and no flag (the result differs from the pre-state only in the one
register written). -/
theorem C1_add_mul_exact (s : CPU) (a b : Nat) (va vb : Int)
    (hlen : s.reg.length = 8) (ha : a < 8) (hb : b < 8)
    (hva : s.reg[a]? = some va) (hvb : s.reg[b]? = some vb) :
    alu s ADD (a : Int) (b : Int) = .ok { s with reg := s.reg.set a (va + vb) } ∧
    alu s MUL (a : Int) (b : Int) = .ok { s with reg := s.reg.set a (va * vb) } := by
  constructor
  · rw [alu_ADD, readReg_nat s a va (by omega) hva, okBind,
      readReg_nat s b vb (by omega) hvb, okBind, writeReg_nat s a _ (by omega)]
  · rw [alu_MUL, readReg_nat s a va (by omega) hva, okBind,
      readReg_nat s b vb (by omega) hvb, okBind, writeReg_nat s a _ (by omega)]

/-- C1 (witness): the amended theorem applied at the initial state with
`a = 0`, `b = 1`. -/
theorem C1_add_mul_exact_witness :
    alu CPU.init ADD ((0 : Nat) : Int) ((1 : Nat) : Int) =
      .ok { CPU.init with reg := CPU.init.reg.set 0 (0 + 0) } ∧
    alu CPU.init MUL ((0 : Nat) : Int) ((1 : Nat) : Int) =
      .ok { CPU.init with reg := CPU.init.reg.set 0 (0 * 0) } :=
  C1_add_mul_exact CPU.init 0 1 0 0 (by decide) (by decide) (by decide)
    (by decide) (by decide)

/-- C4: for valid register indices `a, b`, if `reg[b] = 0` the ALU modulo
opcode halts the machine at once without performing the operation — the
result is the `SystemExit` of `hlt` carrying the pre-state with only the
halted flag set to true, every register (including `reg[a]`) untouched —
and if `reg[b] ≠ 0` it stores `reg[a] mod reg[b]` into `reg[a]` and does
not halt. -/
theorem C4_mod_zero_divisor (s : CPU) (a b : Nat) (va vb : Int)
    (hlen : s.reg.length = 8) (ha : a < 8) (hb : b < 8)
    (hva : s.reg[a]? = some va) (hvb : s.reg[b]? = some vb) :
    (vb = 0 → alu s MOD (a : Int) (b : Int) =
      .error (.sysExit (-1) { s with halted := true })) ∧
    (vb ≠ 0 → alu s MOD (a : Int) (b : Int) =
      .ok { s with reg := s.reg.set a (Int.fmod va vb) }) := by
  constructor
  · intro h0
    rw [alu_MOD, readReg_nat s b vb (by omega) hvb, okBind, if_pos h0]
    rfl
  · intro h0
    rw [alu_MOD, readReg_nat s b vb (by omega) hvb, okBind, if_neg h0,
      readReg_nat s a va (by omega) hva, okBind, writeReg_nat s a _ (by omega)]

/-- C4 (witness): both branches at concrete states — a zero divisor halts
with registers intact, and `7 mod 3` is stored for a nonzero divisor. -/
theorem C4_mod_zero_divisor_witness :
    alu { CPU.init with reg := [9, 0, 0, 0, 0, 0, 0, 0xF4] } MOD
        ((0 : Nat) : Int) ((1 : Nat) : Int) =
      .error (.sysExit (-1)
        { { CPU.init with reg := [9, 0, 0, 0, 0, 0, 0, 0xF4] } with halted := true }) ∧
    alu { CPU.init with reg := [7, 3, 0, 0, 0, 0, 0, 0xF4] } MOD
        ((0 : Nat) : Int) ((1 : Nat) : Int) =
      .ok { { CPU.init with reg := [7, 3, 0, 0, 0, 0, 0, 0xF4] } with
        reg := [7, 3, 0, 0, 0, 0, 0, 0xF4].set 0 (Int.fmod 7 3) } :=
  ⟨(C4_mod_zero_divisor { CPU.init with reg := [9, 0, 0, 0, 0, 0, 0, 0xF4] }
      0 1 9 0 (by decide) (by decide) (by decide) (by decide) (by decide)).1 rfl,
   (C4_mod_zero_divisor { CPU.init with reg := [7, 3, 0, 0, 0, 0, 0, 0xF4] }
      0 1 7 3 (by decide) (by decide) (by decide) (by decide) (by decide)).2
     (by decide)⟩

/-- C5: for valid register indices and arbitrary register values (hence in
particular all pairs in `0..255`, equal values, and the boundary pair
`0, 255`), the ALU compare opcode sets the flag register to exactly one of
the three one-hot condition values — `0b100` when `reg[a] < reg[b]`,
`0b010` when `reg[a] > reg[b]`, `0b001` when they are equal — clearing all
other bits, and modifies nothing else (no register is written). -/
theorem C5_cmp_one_flag (s : CPU) (a b : Nat) (va vb : Int)
    (hlen : s.reg.length = 8) (ha : a < 8) (hb : b < 8)
    (hva : s.reg[a]? = some va) (hvb : s.reg[b]? = some vb) :
    (va < vb → alu s CMP (a : Int) (b : Int) = .ok { s with fl := 0b00000100 }) ∧
    (va > vb → alu s CMP (a : Int) (b : Int) = .ok { s with fl := 0b00000010 }) ∧
    (va = vb → alu s CMP (a : Int) (b : Int) = .ok { s with fl := 0b00000001 }) := by
  refine ⟨fun hlt0 => ?_, fun hgt0 => ?_, fun heq0 => ?_⟩
  · rw [alu_CMP, readReg_nat s a va (by omega) hva, okBind,
      readReg_nat s b vb (by omega) hvb, okBind, if_pos hlt0]
  · rw [alu_CMP, readReg_nat s a va (by omega) hva, okBind,
      readReg_nat s b vb (by omega) hvb, okBind, if_neg (by omega), if_pos hgt0]
  · rw [alu_CMP, readReg_nat s a va (by omega) hva, okBind,
      readReg_nat s b vb (by omega) hvb, okBind, if_neg (by omega),
      if_neg (by omega)]

/-- C5 (witness): the boundary pair `reg[0] = 0`, `reg[1] = 255` sets the
less-than flag alone. -/
theorem C5_cmp_one_flag_witness :
    alu { CPU.init with reg := [0, 255, 0, 0, 0, 0, 0, 0xF4] } CMP
        ((0 : Nat) : Int) ((1 : Nat) : Int) =
      .ok { { CPU.init with reg := [0, 255, 0, 0, 0, 0, 0, 0xF4] } with
        fl := 0b00000100 } :=
  (C5_cmp_one_flag { CPU.init with reg := [0, 255, 0, 0, 0, 0, 0, 0xF4] }
      0 1 0 255 (by decide) (by decide) (by decide) (by decide) (by decide)).1
    (by decide)


lemma set_getElem_self (l : List Int) (i : Nat) (v : Int) (h : l[i]? = some v) :
    l.set i v = l := by
  apply List.ext_getElem?
  intro n
  rw [List.getElem?_set]
  by_cases hin : i = n
  · subst hin
    rw [if_pos rfl, if_pos (List.getElem?_eq_some.mp h).1]
    exact h.symm
  · rw [if_neg hin]

lemma readReg_SP (s : CPU) (v : Int) (hlen : s.reg.length = 8)
    (hv : s.reg[7]? = some v) : readReg s SP = .ok v := by
  have hp : pyGet s.reg SP = some v := by
    unfold SP
    rw [pyGet_nonneg _ _ (by omega) (by omega)]
    exact hv
  unfold readReg
  rw [hp]

lemma writeReg_SP (s : CPU) (v : Int) (hlen : s.reg.length = 8) :
    writeReg s SP v = .ok { s with reg := s.reg.set 7 v } := by
  have hp : pySet s.reg SP v = some (s.reg.set 7 v) := by
    unfold SP
    rw [pySet_nonneg _ _ _ (by omega) (by omega)]
    rfl
  unfold writeReg
  rw [hp]

/-- C6: from any machine state with a valid stack slot below SP, the call
handler decrements SP (register 7) by exactly 1, writes `PC + 2` into
`mem[SP]`, and sets PC to `reg[operand]` (read after the decrement, which
only matters for operand 7) — and nothing else changes; the return handler
then sets PC to `mem[SP]`, leaving SP, every register and every memory cell
exactly as call left them; consequently a call followed immediately by a
return resumes execution at the address two past the call opcode. -/
theorem C6_call_ret (s : CPU) (a : Nat) (sp target : Int)
    (hrlen : s.reg.length = 8) (hmlen : s.ram.length = 256) (ha : a < 8)
    (hsp : s.reg[7]? = some sp) (h0 : 0 ≤ sp - 1) (h1 : sp - 1 < 256)
    (htarget : (s.reg.set 7 (sp - 1))[a]? = some target) :
    call s (a : Int) 0 =
      .ok { s with reg := s.reg.set 7 (sp - 1),
                   ram := s.ram.set (sp - 1).toNat (s.pc + 2),
                   pc := target } ∧
    ret { s with reg := s.reg.set 7 (sp - 1),
                 ram := s.ram.set (sp - 1).toNat (s.pc + 2),
                 pc := target } 0 0 =
      .ok { s with reg := s.reg.set 7 (sp - 1),
                   ram := s.ram.set (sp - 1).toNat (s.pc + 2),
                   pc := s.pc + 2 } := by
  have hrlen7 : (7 : Nat) < s.reg.length := by omega
  have e1 : readReg s SP = .ok sp := readReg_SP s sp hrlen hsp
  have e2 : writeReg s SP (sp - 1) = .ok { s with reg := s.reg.set 7 (sp - 1) } :=
    writeReg_SP s (sp - 1) hrlen
  have e3 : readReg { s with reg := s.reg.set 7 (sp - 1) } SP = .ok (sp - 1) :=
    readReg_SP _ (sp - 1) (by show (s.reg.set 7 (sp - 1)).length = 8; simp [hrlen])
      (List.getElem?_set_self hrlen7)
  have e4 : ram_write { s with reg := s.reg.set 7 (sp - 1) } (sp - 1) (s.pc + 2) =
      .ok { s with reg := s.reg.set 7 (sp - 1),
                   ram := s.ram.set (sp - 1).toNat (s.pc + 2) } :=
    ram_write_ok _ _ _ h0 (by show sp - 1 < (s.ram.length : Int); omega)
  have e5 : readReg { s with reg := s.reg.set 7 (sp - 1),
                             ram := s.ram.set (sp - 1).toNat (s.pc + 2) } (a : Int) =
      .ok target :=
    readReg_nat _ a target
      (by show a < (s.reg.set 7 (sp - 1)).length; simp [hrlen]; omega) htarget
  have e6 : readReg { s with reg := s.reg.set 7 (sp - 1),
                             ram := s.ram.set (sp - 1).toNat (s.pc + 2),
                             pc := target } SP = .ok (sp - 1) :=
    readReg_SP _ (sp - 1) (by show (s.reg.set 7 (sp - 1)).length = 8; simp [hrlen])
      (List.getElem?_set_self hrlen7)
  have e7 : ram_read { s with reg := s.reg.set 7 (sp - 1),
                              ram := s.ram.set (sp - 1).toNat (s.pc + 2),
                              pc := target } (sp - 1) = .ok (s.pc + 2) :=
    ram_read_ok _ _ _ h0
      (by show sp - 1 < ((s.ram.set (sp - 1).toNat (s.pc + 2)).length : Int)
          simp [hmlen]; omega)
      (List.getElem?_set_self (by omega))
  refine ⟨?_, ?_⟩
  · unfold call
    simp only [e1, okBind, e2, e3, e4, e5]
  · unfold ret
    simp only [e6, okBind, e7]

set_option maxRecDepth 4000 in
/-- C6 (witness): the theorem at the initial state (`SP = 0xF4`, all
registers zero), calling through register 0. -/
theorem C6_call_ret_witness :
    call CPU.init ((0 : Nat) : Int) 0 =
      .ok { CPU.init with reg := CPU.init.reg.set 7 (0xF4 - 1),
                          ram := CPU.init.ram.set (0xF4 - 1 : Int).toNat (CPU.init.pc + 2),
                          pc := 0 } ∧
    ret { CPU.init with reg := CPU.init.reg.set 7 (0xF4 - 1),
                        ram := CPU.init.ram.set (0xF4 - 1 : Int).toNat (CPU.init.pc + 2),
                        pc := 0 } 0 0 =
      .ok { CPU.init with reg := CPU.init.reg.set 7 (0xF4 - 1),
                          ram := CPU.init.ram.set (0xF4 - 1 : Int).toNat (CPU.init.pc + 2),
                          pc := CPU.init.pc + 2 } :=
  C6_call_ret CPU.init 0 0xF4 0 (by decide) rfl (by decide) (by decide)
    (by decide) (by decide) (by decide)


lemma reg_restore_ne (l : List Int) (r : Nat) (sp vr : Int) (hlen : l.length = 8)
    (hr : r < 8) (hr7 : ¬ r = 7) (hsp : l[7]? = some sp) (hvr : l[r]? = some vr) :
    ((l.set 7 (sp - 1)).set r vr).set 7 (sp - 1 + 1) = l := by
  have h17 : sp - 1 + 1 = sp := by omega
  rw [h17]
  apply List.ext_getElem?
  intro n
  by_cases hn7 : n = 7
  · subst hn7
    rw [List.getElem?_set_self (by simp [hlen])]
    exact hsp.symm
  · rw [List.getElem?_set_ne (fun hh => hn7 hh.symm)]
    by_cases hnr : n = r
    · subst hnr
      rw [List.getElem?_set_self (by simpa [hlen] using hr)]
      exact hvr.symm
    · rw [List.getElem?_set_ne (fun hh => hnr hh.symm),
        List.getElem?_set_ne (fun hh => hn7 hh.symm)]

lemma reg_restore_sp (l : List Int) (sp : Int) (hsp : l[7]? = some sp) :
    ((l.set 7 (sp - 1)).set 7 (sp - 1)).set 7 (sp - 1 + 1) = l := by
  rw [List.set_set, List.set_set, show sp - 1 + 1 = sp from by omega,
    set_getElem_self _ _ _ hsp]

/-- C7: for every register index `r` (the stack pointer register 7
included) and every machine state with a valid stack slot, push on `r`
followed by pop on `r` restores `reg[r]` to its original value, restores SP
(register 7) to its pre-push value, and leaves every register — indeed the
whole state except the scratch stack cell written by push — unchanged. -/
theorem C7_push_pop (s : CPU) (r : Nat) (sp vr : Int)
    (hrlen : s.reg.length = 8) (hmlen : s.ram.length = 256) (hr : r < 8)
    (hsp : s.reg[7]? = some sp) (hvr : s.reg[r]? = some vr)
    (h0 : 0 ≤ sp - 1) (h1 : sp - 1 < 256) :
    ∃ s₁ s₂, push s (r : Int) 0 = .ok s₁ ∧ pop s₁ (r : Int) 0 = .ok s₂ ∧
      s₂ = { s with ram := s₁.ram } := by
  have h7l : (7 : Nat) < s.reg.length := by omega
  have hmset : (sp - 1).toNat < s.ram.length := by omega
  have e1 : readReg s SP = .ok sp := readReg_SP s sp hrlen hsp
  have e2 : writeReg s SP (sp - 1) = .ok { s with reg := s.reg.set 7 (sp - 1) } :=
    writeReg_SP s (sp - 1) hrlen
  have lenA : ({ s with reg := s.reg.set 7 (sp - 1) } : CPU).reg.length = 8 := by
    simp [hrlen]
  have e3 : readReg { s with reg := s.reg.set 7 (sp - 1) } SP = .ok (sp - 1) :=
    readReg_SP _ (sp - 1) lenA (List.getElem?_set_self h7l)
  by_cases hr7 : r = 7
  · subst hr7
    have e4 : readReg { s with reg := s.reg.set 7 (sp - 1) } ((7 : Nat) : Int) =
        .ok (sp - 1) :=
      readReg_nat _ 7 (sp - 1) (by simp [hrlen])
        (List.getElem?_set_self h7l)
    have e5 : ram_write { s with reg := s.reg.set 7 (sp - 1) } (sp - 1) (sp - 1) =
        .ok { s with reg := s.reg.set 7 (sp - 1),
                     ram := s.ram.set (sp - 1).toNat (sp - 1) } :=
      ram_write_ok _ _ _ h0 (by show sp - 1 < (s.ram.length : Int); omega)
    have hpush : push s ((7 : Nat) : Int) 0 =
        .ok { s with reg := s.reg.set 7 (sp - 1),
                     ram := s.ram.set (sp - 1).toNat (sp - 1) } := by
      unfold push
      simp only [e1, okBind, e2, e3, e4, e5]
    have f1 : readReg { s with reg := s.reg.set 7 (sp - 1),
                               ram := s.ram.set (sp - 1).toNat (sp - 1) } SP =
        .ok (sp - 1) :=
      readReg_SP _ (sp - 1) (by simpa using lenA) (List.getElem?_set_self h7l)
    have f2 : ram_read { s with reg := s.reg.set 7 (sp - 1),
                                ram := s.ram.set (sp - 1).toNat (sp - 1) } (sp - 1) =
        .ok (sp - 1) :=
      ram_read_ok _ _ _ h0
        (by show sp - 1 < ((s.ram.set (sp - 1).toNat (sp - 1)).length : Int)
            simp [hmlen]; omega)
        (List.getElem?_set_self hmset)
    have f3 : writeReg { s with reg := s.reg.set 7 (sp - 1),
                                ram := s.ram.set (sp - 1).toNat (sp - 1) }
        ((7 : Nat) : Int) (sp - 1) =
        .ok { s with reg := (s.reg.set 7 (sp - 1)).set 7 (sp - 1),
                     ram := s.ram.set (sp - 1).toNat (sp - 1) } :=
      writeReg_nat _ 7 (sp - 1) (by simp [hrlen])
    have f4 : readReg { s with reg := (s.reg.set 7 (sp - 1)).set 7 (sp - 1),
                               ram := s.ram.set (sp - 1).toNat (sp - 1) } SP =
        .ok (sp - 1) :=
      readReg_SP _ (sp - 1) (by simp [hrlen])
        (List.getElem?_set_self (by simp [hrlen]))
    have f5 : writeReg { s with reg := (s.reg.set 7 (sp - 1)).set 7 (sp - 1),
                                ram := s.ram.set (sp - 1).toNat (sp - 1) } SP
        (sp - 1 + 1) =
        .ok { s with reg := ((s.reg.set 7 (sp - 1)).set 7 (sp - 1)).set 7 (sp - 1 + 1),
                     ram := s.ram.set (sp - 1).toNat (sp - 1) } :=
      writeReg_SP _ (sp - 1 + 1) (by simp [hrlen])
    have hpop : pop { s with reg := s.reg.set 7 (sp - 1),
                             ram := s.ram.set (sp - 1).toNat (sp - 1) }
        ((7 : Nat) : Int) 0 =
        .ok { s with reg := ((s.reg.set 7 (sp - 1)).set 7 (sp - 1)).set 7 (sp - 1 + 1),
                     ram := s.ram.set (sp - 1).toNat (sp - 1) } := by
      unfold pop
      simp only [f1, okBind, f2, f3, f4, f5]
    refine ⟨_, _, hpush, hpop, ?_⟩
    rw [reg_restore_sp s.reg sp hsp]
  · have e4 : readReg { s with reg := s.reg.set 7 (sp - 1) } ((r : Nat) : Int) =
        .ok vr :=
      readReg_nat _ r vr (by simpa [hrlen] using hr)
        (by rw [List.getElem?_set_ne (fun hh => hr7 hh.symm)]; exact hvr)
    have e5 : ram_write { s with reg := s.reg.set 7 (sp - 1) } (sp - 1) vr =
        .ok { s with reg := s.reg.set 7 (sp - 1),
                     ram := s.ram.set (sp - 1).toNat vr } :=
      ram_write_ok _ _ _ h0 (by show sp - 1 < (s.ram.length : Int); omega)
    have hpush : push s ((r : Nat) : Int) 0 =
        .ok { s with reg := s.reg.set 7 (sp - 1),
                     ram := s.ram.set (sp - 1).toNat vr } := by
      unfold push
      simp only [e1, okBind, e2, e3, e4, e5]
    have f1 : readReg { s with reg := s.reg.set 7 (sp - 1),
                               ram := s.ram.set (sp - 1).toNat vr } SP =
        .ok (sp - 1) :=
      readReg_SP _ (sp - 1) (by simpa using lenA) (List.getElem?_set_self h7l)
    have f2 : ram_read { s with reg := s.reg.set 7 (sp - 1),
                                ram := s.ram.set (sp - 1).toNat vr } (sp - 1) =
        .ok vr :=
      ram_read_ok _ _ _ h0
        (by show sp - 1 < ((s.ram.set (sp - 1).toNat vr).length : Int)
            simp [hmlen]; omega)
        (List.getElem?_set_self hmset)
    have f3 : writeReg { s with reg := s.reg.set 7 (sp - 1),
                                ram := s.ram.set (sp - 1).toNat vr }
        ((r : Nat) : Int) vr =
        .ok { s with reg := (s.reg.set 7 (sp - 1)).set r vr,
                     ram := s.ram.set (sp - 1).toNat vr } :=
      writeReg_nat _ r vr (by simpa [hrlen] using hr)
    have f4 : readReg { s with reg := (s.reg.set 7 (sp - 1)).set r vr,
                               ram := s.ram.set (sp - 1).toNat vr } SP =
        .ok (sp - 1) :=
      readReg_SP _ (sp - 1) (by simp [hrlen])
        (by rw [List.getElem?_set_ne hr7]; exact List.getElem?_set_self h7l)
    have f5 : writeReg { s with reg := (s.reg.set 7 (sp - 1)).set r vr,
                                ram := s.ram.set (sp - 1).toNat vr } SP
        (sp - 1 + 1) =
        .ok { s with reg := ((s.reg.set 7 (sp - 1)).set r vr).set 7 (sp - 1 + 1),
                     ram := s.ram.set (sp - 1).toNat vr } :=
      writeReg_SP _ (sp - 1 + 1) (by simp [hrlen])
    have hpop : pop { s with reg := s.reg.set 7 (sp - 1),
                             ram := s.ram.set (sp - 1).toNat vr }
        ((r : Nat) : Int) 0 =
        .ok { s with reg := ((s.reg.set 7 (sp - 1)).set r vr).set 7 (sp - 1 + 1),
                     ram := s.ram.set (sp - 1).toNat vr } := by
      unfold pop
      simp only [f1, okBind, f2, f3, f4, f5]
    refine ⟨_, _, hpush, hpop, ?_⟩
    rw [reg_restore_ne s.reg r sp vr hrlen hr hr7 hsp hvr]

set_option maxRecDepth 4000 in
/-- C7 (witness): push then pop on register 0 at the initial state. -/
theorem C7_push_pop_witness :
    ∃ s₁ s₂, push CPU.init ((0 : Nat) : Int) 0 = .ok s₁ ∧
      pop s₁ ((0 : Nat) : Int) 0 = .ok s₂ ∧
      s₂ = { CPU.init with ram := s₁.ram } :=
  C7_push_pop CPU.init 0 0xF4 0 (by decide) rfl (by decide) (by decide)
    (by decide) (by decide) (by decide)


lemma ram_read_eq_of_pyGet (s : CPU) (i v : Int) (h : pyGet s.ram i = some v) :
    ram_read s i = .ok v := by
  unfold ram_read
  rw [h]

lemma ram_read_err_of_pyGet (s : CPU) (i : Int) (h : pyGet s.ram i = none) :
    ram_read s i = .error (.indexError s) := by
  unfold ram_read
  rw [h]

lemma runFuel_error (n : Nat) (s : CPU) (e : Stop) (hh : s.halted = false)
    (hs : step s = .error e) : runFuel (n + 1) s = .error e := by
  have hu : runFuel (n + 1) s =
      if s.halted then .ok s else step s >>= fun s' => runFuel n s' := rfl
  rw [hu, if_neg (by simp [hh]), hs, errBind]

/-- C8: the engine decodes the operand count as the top two bits of the
instruction byte (`ir >>> 6`), the ALU classification as bit 5, and the
PC-setter property as bit 4; when a dispatch returns normally, if bit 4 is
clear the engine advances PC to exactly `PC + 1 + operand_count` (the
handler itself having left PC untouched), and if bit 4 is set the engine
leaves the state exactly as the handler produced it. -/
theorem C8_decode_advance (s t : CPU) (ir oa ob : Int)
    (hir : pyGet s.ram s.pc = some ir)
    (hoa : pyGet s.ram (s.pc + 1) = some oa)
    (hob : pyGet s.ram (s.pc + 2) = some ob)
    (hd : dispatch { s with ir := ir } ir oa ob = .ok t) :
    (Int.land (ir >>> (4 : Nat)) 0b0001 ≠ 1 →
      t.pc = s.pc ∧ step s = .ok { t with pc := s.pc + ir >>> (6 : Nat) + 1 }) ∧
    (Int.land (ir >>> (4 : Nat)) 0b0001 = 1 → step s = .ok t) := by
  constructor
  · intro hset
    have hpc : t.pc = s.pc := dispatch_ok_pc { s with ir := ir } ir oa ob t hset hd
    refine ⟨hpc, ?_⟩
    simp only [step_eq s ir oa ob hir hoa hob, hd, okBind]
    rw [if_pos hset, hpc]
  · intro hset
    simp only [step_eq s ir oa ob hir hoa hob, hd, okBind]
    rw [if_neg (not_not_intro hset)]

/-- The fetch state for the C8 witness: a load-immediate instruction
(`0b10000010`, two operands, not a PC setter) at address 0. -/
def c8state : CPU := { CPU.init with ram := (List.replicate 256 (0 : Int)).set 0 130 }

/-- The state the C8 witness dispatch produces: `ldi` wrote `reg[0] := 0`. -/
def c8after : CPU := { c8state with ir := 130, reg := c8state.reg.set 0 0 }

set_option maxRecDepth 8000 in
/-- C8 (witness): the theorem at `c8state`; bit 4 of `0b10000010` is clear,
so PC advances to `0 + 2 + 1`. -/
theorem C8_decode_advance_witness :
    c8after.pc = c8state.pc ∧
    step c8state = .ok { c8after with pc := c8state.pc + (130 : Int) >>> (6 : Nat) + 1 } :=
  (C8_decode_advance c8state c8after 130 0 0 (by decide) (by decide) (by decide)
    (by decide)).1 (by decide)

lemma shiftRight6_bounds (ir : Int) (h0 : 0 ≤ ir) (h1 : ir < 256) :
    0 ≤ ir >>> (6 : Nat) ∧ ir >>> (6 : Nat) ≤ 3 := by
  obtain ⟨m, rfl⟩ := Int.eq_ofNat_of_zero_le h0
  have hm : m < 256 := by exact_mod_cast h1
  have hsh : ((m : Nat) : Int) >>> (6 : Nat) = ((m >>> 6 : Nat) : Int) := rfl
  have hdiv : m >>> 6 = m / 2 ^ 6 := Nat.shiftRight_eq_div_pow m 6
  constructor
  · rw [hsh, hdiv]
    omega
  · rw [hsh, hdiv]
    omega

/-- C3 (amended): the engine never reduces the PC into `[0, 255]`.  What
holds instead: a successful cycle whose fetched byte is a byte value with
the PC-setter bit clear leaves PC at exactly `old PC + 1 + operand count`
(the two-bit field is at most 3, so PC grows by at most 4) — which exceeds
255 whenever a two-operand instruction executes at address 253 (see the
counterexample, where PC reaches 256 from the initial state). -/
theorem C3_pc_advance_bound (s t : CPU) (ir oa ob : Int)
    (hir : pyGet s.ram s.pc = some ir) (hbyte0 : 0 ≤ ir) (hbyte1 : ir < 256)
    (hoa : pyGet s.ram (s.pc + 1) = some oa)
    (hob : pyGet s.ram (s.pc + 2) = some ob)
    (hset : Int.land (ir >>> (4 : Nat)) 0b0001 ≠ 1)
    (h : step s = .ok t) :
    t.pc = s.pc + ir >>> (6 : Nat) + 1 ∧ t.pc ≤ s.pc + 4 := by
  rw [step_eq s ir oa ob hir hoa hob] at h
  obtain ⟨u, hd, h⟩ := bindOkInv h
  rw [if_pos hset] at h
  have hupc : u.pc = s.pc := dispatch_ok_pc { s with ir := ir } ir oa ob u hset hd
  cases Except.ok.inj h
  have hb := shiftRight6_bounds ir hbyte0 hbyte1
  refine ⟨?_, ?_⟩
  · show u.pc + ir >>> (6 : Nat) + 1 = s.pc + ir >>> (6 : Nat) + 1
    rw [hupc]
  · show u.pc + ir >>> (6 : Nat) + 1 ≤ s.pc + 4
    omega

set_option maxRecDepth 8000 in
/-- C3 (witness): the amended theorem at `c8state` (load-immediate at
address 0): the cycle ends with PC = 3 = 0 + 2 + 1. -/
theorem C3_pc_advance_bound_witness :
    (step c8state).toOption.map CPU.pc = some (0 + (130 : Int) >>> (6 : Nat) + 1) := by
  have h := C3_pc_advance_bound c8state
    { c8after with pc := c8state.pc + (130 : Int) >>> (6 : Nat) + 1 } 130 0 0
    (by decide) (by decide) (by decide) (by decide) (by decide) (by decide)
    (by decide)
  rw [show step c8state =
    .ok { c8after with pc := c8state.pc + (130 : Int) >>> (6 : Nat) + 1 } from by decide]
  rw [Except.toOption, Option.map]
  exact congrArg some h.1

/-- The program image for the C3 counterexample: `LDI r0, 253; JMP r0` at
address 0, and `LDI r1, 7` at address 253. -/
def c3ram : List Int :=
  (((((((List.replicate 256 (0 : Int)).set 0 130).set 1 0).set 2 253).set 3 84).set
    253 130).set 254 1).set 255 7

def c3state : CPU := { CPU.init with ram := c3ram }

set_option maxRecDepth 8000 in
/-- C3 (counterexample): from the initial state (PC = 0) running the loaded
program above, three fetch-decode-dispatch-advance cycles succeed and leave
PC = 256, outside `[0, 255]`: the third cycle executes the two-operand
load-immediate at address 253 and the generic advance pushes PC past the
end of memory. -/
theorem C3_counterexample :
    (runFuel 3 c3state).toOption.map CPU.pc = some 256 ∧ ¬ ((256 : Int) ≤ 255) := by
  constructor
  · decide
  · decide


/-- The ten opcodes the `alu` if/elif chain recognizes. -/
def aluOps : List Int := [ADD, AND, CMP, MOD, MUL, NOT, OR, SHL, SHR, XOR]

/-- The ten opcode keys of the branchtable dict. -/
def branchKeys : List Int := [CALL, HLT, JEQ, JMP, JNE, LDI, POP, PRN, PUSH, RET]

/-- C9: an instruction byte that is not a recognized opcode stops the run
loop with a diagnosable error: an ALU-classed byte (bit 5 set) outside the
ALU set makes `alu` raise its `Unsupported ALU operation` exception, and a
non-ALU byte that is no branchtable key fails the dict dispatch with a
`KeyError`; in both cases, for any remaining fuel, the run loop ends with
that error instead of continuing. -/
theorem C9_unrecognized_opcode (s : CPU) (ir oa ob : Int)
    (hh : s.halted = false)
    (hir : pyGet s.ram s.pc = some ir)
    (hoa : pyGet s.ram (s.pc + 1) = some oa)
    (hob : pyGet s.ram (s.pc + 2) = some ob) :
    (Int.land (ir >>> (5 : Nat)) 0b001 = 1 → ir ∉ aluOps →
      step s = .error (.unsupportedALU { s with ir := ir }) ∧
      ∀ n : Nat, runFuel (n + 1) s = .error (.unsupportedALU { s with ir := ir })) ∧
    (Int.land (ir >>> (5 : Nat)) 0b001 ≠ 1 → ir ∉ branchKeys →
      step s = .error (.keyError ir { s with ir := ir }) ∧
      ∀ n : Nat, runFuel (n + 1) s = .error (.keyError ir { s with ir := ir })) := by
  constructor
  · intro hcase hmem
    simp only [aluOps, List.mem_cons, List.not_mem_nil, or_false, not_or] at hmem
    obtain ⟨n1, n2, n3, n4, n5, n6, n7, n8, n9, n10⟩ := hmem
    have hstep : step s = .error (.unsupportedALU { s with ir := ir }) := by
      rw [step_eq s ir oa ob hir hoa hob]
      have hd : dispatch { s with ir := ir } ir oa ob =
          .error (.unsupportedALU { s with ir := ir }) := by
        unfold dispatch
        rw [if_pos hcase]
        unfold alu
        rw [if_neg n1, if_neg n2, if_neg n3, if_neg n4, if_neg n5, if_neg n6,
          if_neg n7, if_neg n8, if_neg n9, if_neg n10]
      rw [hd, errBind]
    exact ⟨hstep, fun n => runFuel_error n s _ hh hstep⟩
  · intro hcase hmem
    simp only [branchKeys, List.mem_cons, List.not_mem_nil, or_false, not_or] at hmem
    obtain ⟨n1, n2, n3, n4, n5, n6, n7, n8, n9, n10⟩ := hmem
    have hstep : step s = .error (.keyError ir { s with ir := ir }) := by
      rw [step_eq s ir oa ob hir hoa hob]
      have hd : dispatch { s with ir := ir } ir oa ob =
          .error (.keyError ir { s with ir := ir }) := by
        unfold dispatch
        rw [if_neg hcase]
        unfold branchtableLookup
        rw [if_neg n1, if_neg n2, if_neg n3, if_neg n4, if_neg n5, if_neg n6,
          if_neg n7, if_neg n8, if_neg n9, if_neg n10]
      rw [hd, errBind]
    exact ⟨hstep, fun n => runFuel_error n s _ hh hstep⟩

/-- The fetch state for the C9 witness: the byte `0b00100000` (bit 5 set,
not one of the ten ALU opcodes) at address 0. -/
def c9state : CPU := { CPU.init with ram := (List.replicate 256 (0 : Int)).set 0 32 }

set_option maxRecDepth 8000 in
/-- C9 (witness): dispatching `0b00100000` raises the ALU decode error and
the run loop stops with it. -/
theorem C9_unrecognized_opcode_witness :
    step c9state = .error (.unsupportedALU { c9state with ir := 32 }) ∧
    ∀ n : Nat, runFuel (n + 1) c9state =
      .error (.unsupportedALU { c9state with ir := 32 }) :=
  (C9_unrecognized_opcode c9state 32 0 0 rfl (by decide) (by decide) (by decide)).1
    (by decide) (by decide)

/-- C10: the engine reads the bytes at `PC+1` and `PC+2` as operands before
dispatch, unconditionally and whatever the instruction's operand count; so
fetching any instruction byte `v` — the zero-operand halt included — at
address 254 or 255 raises an `IndexError` by indexing past the end of the
256-cell memory, instead of executing the instruction. -/
theorem C10_operand_overread (s : CPU) (v : Int)
    (hlen : s.ram.length = 256)
    (hpc : s.pc = 254 ∨ s.pc = 255)
    (hv : pyGet s.ram s.pc = some v) :
    step s = .error (.indexError { s with ir := v }) := by
  have e1 : ram_read s s.pc = .ok v := ram_read_eq_of_pyGet s s.pc v hv
  cases hpc with
  | inl h254 =>
    have hw : ∃ w, pyGet s.ram (s.pc + 1) = some w := by
      rw [pyGet_nonneg _ _ (by omega) (by omega)]
      exact ⟨_, List.getElem?_eq_getElem (by omega)⟩
    obtain ⟨w, hw⟩ := hw
    have e2 : ram_read { s with ir := v } (s.pc + 1) = .ok w :=
      ram_read_eq_of_pyGet _ _ w hw
    have e3 : ram_read { s with ir := v } (s.pc + 2) =
        .error (.indexError { s with ir := v }) :=
      ram_read_err_of_pyGet _ _ (pyGet_ge s.ram _ (by omega))
    unfold step
    simp only [e1, okBind, e2, e3, errBind]
  | inr h255 =>
    have e2 : ram_read { s with ir := v } (s.pc + 1) =
        .error (.indexError { s with ir := v }) :=
      ram_read_err_of_pyGet _ _ (pyGet_ge s.ram _ (by omega))
    unfold step
    simp only [e1, okBind, e2, errBind]

set_option maxRecDepth 8000 in
/-- C10 (witness): at the initial state moved to PC = 254, the fetch of the
second operand byte at address 256 faults even though memory is all zeros
(the fetched opcode 0 would be irrelevant: the operands are read first). -/
theorem C10_operand_overread_witness :
    step { CPU.init with pc := 254 } =
      .error (.indexError { CPU.init with pc := 254, ir := 0 }) :=
  C10_operand_overread { CPU.init with pc := 254 } 0 rfl (Or.inl rfl) (by decide)

set_option maxRecDepth 8000 in
/-- C2: with a missing program file, `load` prints `File not found.` and
returns normally, and `main` still calls `cpu.run()` on the untouched
all-zero machine: the run loop does execute — it fetches opcode 0 at PC 0,
finds no branchtable key for it, and faults with a `KeyError` — for any
positive fuel.  This contradicts the claim that the run loop performs no
fetch-decode-execute cycle and that the machine is neither advanced nor
faulted. -/
theorem C2_missing_file_runs_anyway (n : Nat) :
    mainModel (n + 1) ["./ls8_sprint.py", "missing.ls8"] none =
      (["File not found."], some (.error (.keyError 0 { CPU.init with ir := 0 }))) := by
  have hs : step CPU.init = .error (.keyError 0 { CPU.init with ir := 0 }) := by decide
  have hr : runFuel (n + 1) CPU.init = .error (.keyError 0 { CPU.init with ir := 0 }) :=
    runFuel_error n CPU.init _ rfl hs
  unfold mainModel
  rw [if_neg (by decide)]
  have hl : load CPU.init none = (CPU.init, ["File not found."]) := rfl
  simp only [hl, hr]

end LS8





